import Mathlib

/-!
# terraform-provider-dnsmasqapi: client and resource lifecycle

A shallow embedding of `pkg/client/client.go` and
`internal/provider/dnsentry/resource_dnsentry.go`.

Go strings are Lean strings (text in valid UTF-8).  A Go `error` is its
`Error()` text, `none` being the nil error.  A Go slice of records is `Option (List DNSRecord)`, `none`
being the nil slice, so that a nil result and an empty, non-nil one stay apart.
A function returning `(value, error)` returns a pair.

The Go standard library and the network are the environment `Env`: what
`url.Parse`, `json.Decoder.Decode` and `http.Client.Do` answer is a field of it,
and the functions of the repository are written over an arbitrary `Env`.
Reference models of the first two (`urlParse`, `jsonDecodeRecords`) are given
for evaluating the code on concrete inputs.
-/

namespace DnsmasqApi

/-! ## Go strings -/

/-- Go `strings.HasPrefix(s, pre)`, on the characters. -/
def startsWith (s pre : List Char) : Bool := pre.isPrefixOf s

/-- Go `strings.HasPrefix(s, pre)`. -/
def hasPrefix (s pre : String) : Bool := startsWith s.toList pre.toList

deriving instance DecidableEq for Except

/-! ## Constants (`pkg/constants/constants_dnsentry.go`) -/

def FieldProviderAPIURL : String := "api_url"
def FieldProviderAPIPort : String := "api_port"
def FieldProviderSSLVerify : String := "ssl_verify"
def ResourceTypeDNSEntry : String := "dnsmasqapi_dnsentry"
def FieldDNSEntryAppend : String := "append"
def FieldDNSEntryHostname : String := "hostname"
def FieldDNSEntryIpAddress : String := "ip_address"
def FieldDescDNSEntryHostname : String :=
  "The hostname of the DNS entry. Should be a Fully Qualified Domain Name (FQDN)."
def FieldDescDNSEntryIpAddress : String := "The IP Addess of the DNS entry."

/-! ## Diagnostics (`terraform-plugin-sdk/v2/diag`) -/

inductive Severity where
  | Error
  | Warning
  deriving DecidableEq, Repr

structure Diagnostic where
  Severity : Severity
  Summary : String
  Detail : String := ""
  deriving DecidableEq, Repr

/-- Go `diag.Diagnostics`; the nil value is `[]` (the code never builds an
empty non-nil one). -/
abbrev Diagnostics := List Diagnostic

/-- Go `diag.FromErr`: nil for a nil error, else one `Error` diagnostic whose
summary is the error text. -/
def FromErr (err : Option String) : Diagnostics :=
  match err with
  | none => []
  | some msg => [{ Severity := Severity.Error, Summary := msg }]

/-! ## Data model -/

/-- Modelled from the spec: the record type `model.DNSRecord` of the
`dnsmasq-api` module, `{hostname: string, ip: string}`. -/
structure DNSRecord where
  Hostname : String
  IP : String
  deriving DecidableEq, Repr

/-- A Go `[]model.DNSRecord`: `none` is the nil slice. -/
abbrev Records := Option (List DNSRecord)

/-- The fields of Go's `url.URL` that the client reads.  `Host` is the
`host[:port]` text of the authority. -/
structure URL where
  Scheme : String
  Host : String
  deriving DecidableEq, Repr

/-- Index of the last occurrence of `c` (Go `strings.LastIndexByte`). -/
def lastIndexOf (c : Char) : List Char → Option Nat
  | [] => none
  | x :: xs =>
    match lastIndexOf c xs with
    | some i => some (i + 1)
    | none => if x == c then some 0 else none

/-- Go `validOptionalPort`: empty, or a colon followed by decimal digits only. -/
def validOptionalPort (port : List Char) : Bool :=
  match port with
  | [] => true
  | c :: rest => c == ':' && rest.all (fun b => decide ('0' ≤ b) && decide (b ≤ '9'))

/-- Go `(*URL).Port`: the digits after the last colon of `Host` when only
digits follow it, else the empty string. -/
def URL.Port (u : URL) : String :=
  match lastIndexOf ':' u.Host.toList with
  | some i =>
    if validOptionalPort (u.Host.toList.drop i) then String.mk (u.Host.toList.drop (i + 1))
    else ""
  | none => ""

/-- The reader behind `http.Response.Body`: `data` is what reading it yields,
`repr` is what `fmt` prints for the reader value itself under `%v`. -/
structure Body where
  data : String
  repr : String
  deriving DecidableEq, Repr

/-- Go `http.Response`, the fields the client reads.  `Header` maps a key to
its values. -/
structure Response where
  StatusCode : Int
  Header : List (String × List String) := []
  Body : Option Body := none
  deriving DecidableEq, Repr

/-- Go `Header.Get` for a canonical key: the first value stored under the key,
the empty string when there is none. -/
def Response.headerGet (res : Response) (key : String) : String :=
  match res.Header.lookup key with
  | some (v :: _) => v
  | _ => ""

/-- Modelled from the spec: the request type `model.SetDNSRecordRequest` of the
`dnsmasq-api` module, whose JSON form is `{"ips": [string]}`. -/
structure SetDNSRecordRequest where
  IPs : List String
  deriving DecidableEq, Repr

/-- One call of `http.Client.Do`: the request built by `http.NewRequest` and
the TLS setting of the transport that carries it.  `URL` is the string handed
to `http.NewRequest`; `Body` is the value whose `json.Marshal` text is the
request body, `none` for an empty body. -/
structure Request where
  Method : String
  URL : String
  ContentType : Option String
  Body : Option SetDNSRecordRequest
  InsecureSkipVerify : Bool
  deriving DecidableEq, Repr

/-- The Go standard library and the network, as the client sees them. -/
structure Env where
  /-- Go `url.Parse`. -/
  urlParse : String → Except String URL
  /-- Go `json.NewDecoder(body).Decode(&entries)` on a nil `entries`: the error,
  or the value `entries` holds afterwards. -/
  jsonDecode : String → Except String Records
  /-- Go `http.Client.Do`: given the requests issued before (oldest first) and
  the present one, the transport error or the response. -/
  Do : List Request → Request → Except String Response

/-! ## `pkg/client/client.go` -/

/-- Go `Client`; its field `httpClient` is never read by the code. -/
structure Client where
  APIAddress : String
  SSLVerify : Bool
  deriving DecidableEq, Repr

/-- The warning `NewClient` emits for an address without a scheme. -/
def lacksProtocolWarning : Diagnostic :=
  { Severity := Severity.Warning
    Summary := "URL Lacks Protocol"
    Detail := "API URL lacks 'http://' or 'https://'. Defaulting to 'https://'.\n" }

/-- The address `NewClient` parses: `apiURL`, with `https://` in front when it
has neither scheme prefix. -/
def withScheme (apiURL : String) : String :=
  if !hasPrefix apiURL "http://" && !hasPrefix apiURL "https://" then "https://" ++ apiURL
  else apiURL

/-- Go `NewClient`. -/
def NewClient (env : Env) (apiURL : String) (apiPort : Int) (sslVerify : Bool) :
    Option Client × Diagnostics :=
  let diags : Diagnostics :=
    if !hasPrefix apiURL "http://" && !hasPrefix apiURL "https://" then [lacksProtocolWarning]
    else []
  let apiURL := withScheme apiURL
  match env.urlParse apiURL with
  | .error err => (none, FromErr (some ("invalid API URL: " ++ err)))
  | .ok parsedURL =>
    if parsedURL.Port != "" then
      (none, FromErr (some ("API URL should not contain a port. Use the separate field " ++
        FieldProviderAPIPort)))
    else
      let apiAddress := if apiPort != 0 then apiURL ++ ":" ++ toString apiPort else apiURL
      (some { APIAddress := apiAddress, SSLVerify := sslVerify }, diags)

/-- Go `fmt`'s `%v` of `res.Body`, an `io.ReadCloser`. -/
def fmtBody (b : Option Body) : String :=
  match b with
  | none => "<nil>"
  | some r => r.repr

/-- Go `(*Client).doRequest`, which returns either `(res, nil)` or
`(nil, err)`.  `body` is `none` for a nil body; the only other body the client
passes is a `SetDNSRecordRequest`, which `json.Marshal` always accepts.
`http.NewRequest` fails exactly when `url.Parse` rejects the URL.  `log` holds
the requests issued so far; the result carries the log afterwards. -/
def doRequest (env : Env) (c : Client) (log : List Request) (method route : String)
    (body : Option SetDNSRecordRequest) : Except String Response × List Request :=
  let url := c.APIAddress ++ "/" ++ route
  match env.urlParse url with
  | .error err => (.error ("failed to create request: " ++ err), log)
  | .ok _ =>
    let req : Request :=
      { Method := method
        URL := url
        ContentType := body.map (fun _ => "application/json")
        Body := body
        InsecureSkipVerify := !c.SSLVerify }
    match env.Do log req with
    | .error err => (.error ("failed to perform request: " ++ err), log ++ [req])
    | .ok res =>
      if res.StatusCode != 200 then
        (.error ("request failed with status code: " ++ toString res.StatusCode ++
          " and body: " ++ fmtBody res.Body), log ++ [req])
      else (.ok res, log ++ [req])

/-- Go `(*Client).decodeDNSRecords`. -/
def decodeDNSRecords (env : Env) (res : Response) : Records × Option String :=
  match res.Body with
  | some b =>
    if res.headerGet "Content-Type" == "application/json" then
      match env.jsonDecode b.data with
      | .error err => (none, some ("failed to parse response body: " ++ err))
      | .ok entries => (entries, none)
    else (none, some ("unexpected response content-type: " ++ res.headerGet "Content-Type"))
  | none => (none, none)

/-- Go `(*Client).DeleteDNSEntry`. -/
def DeleteDNSEntry (env : Env) (c : Client) (log : List Request) (hostname : String) :
    Option String × List Request :=
  if hostname == "" then (some "hostname must be provided", log)
  else
    let route := "dns/" ++ hostname
    match doRequest env c log "DELETE" route none with
    | (.error err, log1) => (some err, log1)
    | (.ok _, log1) => (none, log1)

/-- Go `(*Client).GetAllDNSEntries`. -/
def GetAllDNSEntries (env : Env) (c : Client) (log : List Request) :
    (Records × Option String) × List Request :=
  let route := "dns"
  match doRequest env c log "GET" route none with
  | (.error err, log1) => ((none, some err), log1)
  | (.ok res, log1) => (decodeDNSRecords env res, log1)

/-- Go `(*Client).GetDNSEntry`. -/
def GetDNSEntry (env : Env) (c : Client) (log : List Request) (hostname : String) :
    (Records × Option String) × List Request :=
  if hostname == "" then ((none, some "hostname must be provided"), log)
  else
    let route := "dns/" ++ hostname
    match doRequest env c log "GET" route none with
    | (.error err, log1) => ((none, some err), log1)
    | (.ok res, log1) => (decodeDNSRecords env res, log1)

/-- Go `(*Client).PostDNSEntry`. -/
def PostDNSEntry (env : Env) (c : Client) (log : List Request) (hostname ip : String)
    (append : Bool) : (Records × Option String) × List Request :=
  if hostname == "" || ip == "" then ((none, some "hostname and ip must be provided"), log)
  else
    let route := "dns/" ++ hostname
    let route := if append then route ++ "?append=true" else route
    let body : SetDNSRecordRequest := { IPs := [ip] }
    match doRequest env c log "POST" route (some body) with
    | (.error err, log1) => ((none, some err), log1)
    | (.ok res, log1) => (decodeDNSRecords env res, log1)

/-! ## `internal/provider/dnsentry/resource_dnsentry.go` -/

/-- A value held by a `schema.ResourceData` field. -/
inductive FieldValue where
  | str (s : String)
  | bool (b : Bool)
  deriving DecidableEq, Repr

/-- Go `schema.ResourceData` under `ResourceSchema()`: the id and the three
fields `hostname`, `ip_address` (strings) and `append` (bool). -/
structure ResourceData where
  Id : String
  hostname : String
  ip_address : String
  append : Bool
  deriving DecidableEq, Repr

/-- Go `d.Get(key)`: the value of a schema field, nil (`none`) for a key the
schema does not have. -/
def ResourceData.Get (d : ResourceData) (key : String) : Option FieldValue :=
  if key == FieldDNSEntryHostname then some (.str d.hostname)
  else if key == FieldDNSEntryIpAddress then some (.str d.ip_address)
  else if key == FieldDNSEntryAppend then some (.bool d.append)
  else none

/-- Go `d.SetId`. -/
def ResourceData.SetId (d : ResourceData) (v : String) : ResourceData := { d with Id := v }

/-- Go `d.Set(key, value)` for a string `value`: writes a string field of the
schema; for any other key (not in the schema, or the bool field) it returns an
error and writes nothing.  The flag tells whether the returned error is nil.
(When it runs acceptance tests the SDK panics on that error instead of
returning it; this is the SDK in normal operation.) -/
def ResourceData.Set (d : ResourceData) (key value : String) : ResourceData × Bool :=
  if key == FieldDNSEntryHostname then ({ d with hostname := value }, true)
  else if key == FieldDNSEntryIpAddress then ({ d with ip_address := value }, true)
  else (d, false)

/-- How a call ends: it returns a value, or the goroutine panics. -/
inductive Outcome (α : Type) where
  | returns (a : α)
  | panics
  deriving DecidableEq, Repr

/-- What a lifecycle callback leaves behind: how it ended, the resource data
and the request log at that point. -/
structure Lifecycle where
  outcome : Outcome Diagnostics
  d : ResourceData
  log : List Request

/-- Go `resourceDnsEntryRead`; `c` is the `*client.Client` passed as `m`. -/
def resourceDnsEntryRead (env : Env) (c : Client) (d : ResourceData) (log : List Request) :
    Lifecycle :=
  match d.Get FieldDNSEntryHostname with
  | some (.str hostname) =>
    match GetDNSEntry env c log hostname with
    | ((_, some err), log1) => { outcome := .returns (FromErr (some err)), d := d, log := log1 }
    | ((entries, none), log1) =>
      match entries.getD [] with
      | [] => { outcome := .panics, d := d, log := log1 }
      | e0 :: _ =>
        let d1 := d.SetId (hostname ++ "|" ++ e0.IP)
        let d2 := (d1.Set FieldDescDNSEntryIpAddress e0.IP).1
        { outcome := .returns [], d := d2, log := log1 }
  | _ => { outcome := .panics, d := d, log := log }

/-- Go `resourceDnsEntryCreate`. -/
def resourceDnsEntryCreate (env : Env) (c : Client) (d : ResourceData) (log : List Request) :
    Lifecycle :=
  match d.Get FieldDNSEntryHostname, d.Get FieldDNSEntryIpAddress, d.Get FieldDNSEntryAppend with
  | some (.str hostname), some (.str ipAddress), some (.bool apnd) =>
    match PostDNSEntry env c log hostname ipAddress apnd with
    | ((_, some err), log1) => { outcome := .returns (FromErr (some err)), d := d, log := log1 }
    | ((_, none), log1) => resourceDnsEntryRead env c d log1
  | _, _, _ => { outcome := .panics, d := d, log := log }

/-- Go `resourceDnsEntryUpdate`. -/
def resourceDnsEntryUpdate (env : Env) (c : Client) (d : ResourceData) (log : List Request) :
    Lifecycle :=
  match d.Get FieldDNSEntryHostname, d.Get FieldDNSEntryIpAddress, d.Get FieldDNSEntryAppend with
  | some (.str hostname), some (.str ipAddress), some (.bool apnd) =>
    match PostDNSEntry env c log hostname ipAddress apnd with
    | ((_, some err), log1) => { outcome := .returns (FromErr (some err)), d := d, log := log1 }
    | ((_, none), log1) => resourceDnsEntryRead env c d log1
  | _, _, _ => { outcome := .panics, d := d, log := log }

/-- Go `resourceDnsEntryDelete`: the diagnostics built from the client error
are dropped, the id is cleared and nil is returned in either case. -/
def resourceDnsEntryDelete (env : Env) (c : Client) (d : ResourceData) (log : List Request) :
    Lifecycle :=
  match d.Get FieldDNSEntryHostname with
  | some (.str hostname) =>
    match DeleteDNSEntry env c log hostname with
    | (some err, log1) =>
      let _dropped := FromErr (some err)
      { outcome := .returns [], d := d.SetId "", log := log1 }
    | (none, log1) => { outcome := .returns [], d := d.SetId "", log := log1 }
  | _ => { outcome := .panics, d := d, log := log }

/-! ## Reference model of `net/url.Parse`

The parser of Go's `net/url`, on the characters of the string.  It decides
which strings parse and gives the scheme and the authority's host text.
Percent-escapes are checked as Go checks them and left as written in `Host`
(Go replaces them by the bytes they stand for; `Port` reads the same either
way).  Error texts are Go's for printable ASCII input. -/

/-- Go `strconv.Quote`, for text without control or non-printing characters. -/
def goQuote (s : List Char) : List Char :=
  '"' :: (s.flatMap fun c => if c == '"' || c == '\\' then ['\\', c] else [c]) ++ ['"']

/-- Go `stringContainsCTLByte`. -/
def stringContainsCTLByte (s : List Char) : Bool :=
  s.any fun c => decide (c.toNat < 0x20) || c.toNat == 0x7f

def ishex (c : Char) : Bool :=
  c.isDigit || (decide ('a' ≤ c) && decide (c ≤ 'f')) || (decide ('A' ≤ c) && decide (c ≤ 'F'))

def unhex (c : Char) : Nat :=
  if c.isDigit then c.toNat - '0'.toNat
  else if decide ('a' ≤ c) && decide (c ≤ 'f') then c.toNat - 'a'.toNat + 10
  else if decide ('A' ≤ c) && decide (c ≤ 'F') then c.toNat - 'A'.toNat + 10
  else 0

/-- The modes of Go's `unescape` that `Parse` uses. -/
inductive Encoding where
  | encodePath
  | encodeHost
  | encodeZone
  | encodeUserPassword
  | encodeFragment
  deriving DecidableEq, Repr

/-- Go `shouldEscape(c, encodeHost)`, for an ASCII character. -/
def shouldEscapeHost (c : Char) : Bool :=
  !(c.isAlphanum || "!$&'()*+,;=:[]<>\"-_.~".toList.contains c)

/-- The error of Go `unescape(s, mode)`, if any: a malformed escape, an escape
the host or zone may not hold, or a character the host may not hold. -/
def unescapeError (mode : Encoding) : List Char → Option String
  | [] => none
  | '%' :: a :: b :: rest =>
    if !(ishex a && ishex b) then
      some (String.mk ("invalid URL escape ".toList ++ goQuote ['%', a, b]))
    else if mode == Encoding.encodeHost && decide (unhex a < 8) && !(a == '2' && b == '5') then
      some (String.mk ("invalid URL escape ".toList ++ goQuote ['%', a, b]))
    else if mode == Encoding.encodeZone && !(a == '2' && b == '5') &&
        unhex a * 16 + unhex b != 32 &&
        (decide (unhex a * 16 + unhex b < 128) &&
          shouldEscapeHost (Char.ofNat (unhex a * 16 + unhex b)) ||
         decide (128 ≤ unhex a * 16 + unhex b)) then
      some (String.mk ("invalid URL escape ".toList ++ goQuote ['%', a, b]))
    else unescapeError mode rest
  | '%' :: rest => some (String.mk ("invalid URL escape ".toList ++ goQuote ('%' :: rest)))
  | c :: rest =>
    if (mode == Encoding.encodeHost || mode == Encoding.encodeZone) &&
        decide (c.toNat < 0x80) && shouldEscapeHost c then
      some (String.mk ("invalid character ".toList ++ goQuote [c] ++ " in host name".toList))
    else unescapeError mode rest

/-- Go `getScheme`: the scheme and what follows its colon; no scheme when the
text does not start with one; an error when it starts with a colon. -/
def getScheme (rawURL : List Char) : List Char → List Char → Except String (List Char × List Char)
  | _, [] => .ok ([], rawURL)
  | acc, c :: cs =>
    if c.isAlpha then getScheme rawURL (acc ++ [c]) cs
    else if c.isDigit || c == '+' || c == '-' || c == '.' then
      if acc.isEmpty then .ok ([], rawURL) else getScheme rawURL (acc ++ [c]) cs
    else if c == ':' then
      if acc.isEmpty then .error "missing protocol scheme" else .ok (acc, cs)
    else .ok ([], rawURL)

/-- Index of the first occurrence of `pat` (Go `strings.Index`). -/
def indexOfSub (pat : List Char) : List Char → Option Nat
  | [] => if pat.isEmpty then some 0 else none
  | c :: cs =>
    if pat.isPrefixOf (c :: cs) then some 0 else (indexOfSub pat cs).map (· + 1)

/-- Go `parseHost`, as a check: the error, if any. -/
def parseHostError (host : List Char) : Option String :=
  let plain : Option String := unescapeError Encoding.encodeHost host
  match host with
  | '[' :: _ =>
    match lastIndexOf ']' host with
    | none => some "missing ']' in host"
    | some i =>
      let colonPort := host.drop (i + 1)
      if !validOptionalPort colonPort then
        some (String.mk ("invalid port ".toList ++ goQuote colonPort ++ " after host".toList))
      else
        match indexOfSub "%25".toList (host.take i) with
        | some zone =>
          (unescapeError Encoding.encodeHost (host.take zone)).orElse fun _ =>
          (unescapeError Encoding.encodeZone ((host.take i).drop zone)).orElse fun _ =>
          unescapeError Encoding.encodeHost (host.drop i)
        | none => plain
  | _ =>
    match lastIndexOf ':' host with
    | some i =>
      let colonPort := host.drop i
      if !validOptionalPort colonPort then
        some (String.mk ("invalid port ".toList ++ goQuote colonPort ++ " after host".toList))
      else plain
    | none => plain

/-- Go `validUserinfo`. -/
def validUserinfo (s : List Char) : Bool :=
  s.all fun r => r.isAlphanum || "-._:~!$&'()*+,;=%@".toList.contains r

/-- Go `parseAuthority`: the host text, or the error. -/
def parseAuthority (authority : List Char) : Except String (List Char) :=
  match lastIndexOf '@' authority with
  | none =>
    match parseHostError authority with
    | some err => .error err
    | none => .ok authority
  | some i =>
    let host := authority.drop (i + 1)
    match parseHostError host with
    | some err => .error err
    | none =>
      let userinfo := authority.take i
      if !validUserinfo userinfo then .error "net/url: invalid userinfo"
      else
        let username := userinfo.takeWhile (· != ':')
        let password := (userinfo.dropWhile (· != ':')).drop 1
        match (unescapeError Encoding.encodeUserPassword username).orElse fun _ =>
            unescapeError Encoding.encodeUserPassword password with
        | some err => .error err
        | none => .ok host

/-- Go `parse(rawURL, false)`: the URL without its fragment. -/
def parseNoFragment (rawURL : List Char) : Except String URL :=
  if stringContainsCTLByte rawURL then .error "net/url: invalid control character in URL"
  else if rawURL == ['*'] then .ok { Scheme := "", Host := "" }
  else
    match getScheme rawURL [] rawURL with
    | .error err => .error err
    | .ok (scheme, rest) =>
      let scheme := scheme.map Char.toLower
      let rest := rest.takeWhile (· != '?')
      if !startsWith rest ['/'] && !scheme.isEmpty then
        .ok { Scheme := String.mk scheme, Host := "" }
      else if !startsWith rest ['/'] && (rest.takeWhile (· != '/')).contains ':' then
        .error "first path segment in URL cannot contain colon"
      else if (!scheme.isEmpty || !startsWith rest ['/', '/', '/']) && startsWith rest ['/', '/'] then
        let authority := (rest.drop 2).takeWhile (· != '/')
        let rest := (rest.drop 2).dropWhile (· != '/')
        match parseAuthority authority with
        | .error err => .error err
        | .ok host =>
          match unescapeError Encoding.encodePath rest with
          | some err => .error err
          | none => .ok { Scheme := String.mk scheme, Host := String.mk host }
      else
        match unescapeError Encoding.encodePath rest with
        | some err => .error err
        | none => .ok { Scheme := String.mk scheme, Host := "" }

/-- Go `url.Parse`. -/
def urlParse (rawURL : String) : Except String URL :=
  let u := rawURL.toList.takeWhile (· != '#')
  let frag := (rawURL.toList.dropWhile (· != '#')).drop 1
  match parseNoFragment u with
  | .error err => .error (String.mk ("parse ".toList ++ goQuote u ++ ": ".toList ++ err.toList))
  | .ok url =>
    match unescapeError Encoding.encodeFragment frag with
    | some err =>
      .error (String.mk ("parse ".toList ++ goQuote rawURL.toList ++ ": ".toList ++ err.toList))
    | none => .ok url

/-! ## Reference model of `encoding/json`

`json.NewDecoder(body).Decode(&entries)` for `entries []model.DNSRecord`:
the decoder skips leading white space, reads the first JSON value of the body
and ignores what follows it; `null` leaves the slice nil, an array fills it,
any other value or a member of the wrong type is an error.  Error texts are
shortened (Go names the offending character or type). -/

/-- A JSON value as the decoder reads it (the numeric value of a number is
not kept: no field of a record is numeric). -/
inductive JValue where
  | null
  | bool (b : Bool)
  | num
  | str (s : List Char)
  | arr (xs : List JValue)
  | obj (kvs : List (List Char × JValue))

/-- Go's JSON `isSpace`. -/
def isSpace (c : Char) : Bool := c == ' ' || c == '\t' || c == '\r' || c == '\n'

def skipWS (cs : List Char) : List Char := cs.dropWhile isSpace

/-- The value of four hexadecimal digits. -/
def hex4 (a b c d : Char) : Nat := ((unhex a * 16 + unhex b) * 16 + unhex c) * 16 + unhex d

/-- The character of a single-letter escape, if the letter is one. -/
def simpleEscape (e : Char) : Option Char :=
  if e == '"' then some '"'
  else if e == '\\' then some '\\'
  else if e == '/' then some '/'
  else if e == 'b' then some (Char.ofNat 8)
  else if e == 'f' then some (Char.ofNat 12)
  else if e == 'n' then some '\n'
  else if e == 'r' then some '\r'
  else if e == 't' then some '\t'
  else none

/-- The code point of the surrogate pair `hi`, `lo` (Go `utf16.DecodeRune`),
if they are one. -/
def decodeSurrogates (hi lo : Nat) : Option Nat :=
  if decide (0xD800 ≤ hi) && decide (hi < 0xDC00) && decide (0xDC00 ≤ lo) && decide (lo < 0xE000) then
    some ((hi - 0xD800) * 0x400 + (lo - 0xDC00) + 0x10000)
  else none

/-- Go `getu4`: the value of an escape `\uXXXX` at the head of the text. -/
def getu4 (cs : List Char) : Option Nat :=
  match cs with
  | b0 :: b1 :: a :: b :: c :: d :: _ =>
    if b0 == '\\' && b1 == 'u' && ishex a && ishex b && ishex c && ishex d then some (hex4 a b c d)
    else none
  | _ => none

/-- The text of a JSON string after its opening quote: the decoded characters
and what follows the closing quote.  `skip` counts characters already decoded
(the second escape of a surrogate pair) that are passed over.  A surrogate
escape that is not the first half of a pair decodes to U+FFFD. -/
def parseStringBody : Nat → List Char → List Char → Option (List Char × List Char)
  | _, _, [] => none
  | skip + 1, acc, _ :: rest => parseStringBody skip acc rest
  | 0, acc, c :: rest =>
    if c == '"' then some (acc, rest)
    else if c == '\\' then
      match rest with
      | [] => none
      | e :: rest1 =>
        if e == 'u' then
          match rest1 with
          | a :: b :: c1 :: d :: rest2 =>
            if !(ishex a && ishex b && ishex c1 && ishex d) then none
            else if decide (0xD800 ≤ hex4 a b c1 d) && decide (hex4 a b c1 d < 0xE000) then
              match (getu4 rest2).bind (decodeSurrogates (hex4 a b c1 d)) with
              | some r => parseStringBody 6 (acc ++ [Char.ofNat r]) rest2
              | none => parseStringBody 0 (acc ++ [Char.ofNat 0xFFFD]) rest2
            else parseStringBody 0 (acc ++ [Char.ofNat (hex4 a b c1 d)]) rest2
          | _ => none
        else
          match simpleEscape e with
          | some x => parseStringBody 0 (acc ++ [x]) rest1
          | none => none
    else if decide (c.toNat < 0x20) then none
    else parseStringBody 0 (acc ++ [c]) rest

/-- One or more decimal digits: what follows them. -/
def digits1 (cs : List Char) : Option (List Char) :=
  match cs with
  | c :: rest => if c.isDigit then some (rest.dropWhile Char.isDigit) else none
  | [] => none

/-- A JSON number at the head of the text: what follows it. -/
def parseNumber (cs : List Char) : Option (List Char) :=
  let cs := match cs with
    | '-' :: r => r
    | _ => cs
  let afterInt : Option (List Char) :=
    match cs with
    | '0' :: r => some r
    | _ => digits1 cs
  let afterFrac : Option (List Char) :=
    match afterInt with
    | some ('.' :: r) => digits1 r
    | other => other
  match afterFrac with
  | some (e :: r) =>
    if e == 'e' || e == 'E' then
      match r with
      | s :: r1 => if s == '+' || s == '-' then digits1 r1 else digits1 r
      | [] => none
    else some (e :: r)
  | other => other

/-- The text after the literal `lit`, when the text starts with it. -/
def parseLiteral (lit : List Char) (cs : List Char) : Option (List Char) :=
  if startsWith cs lit then some (cs.drop lit.length) else none

/-- Go's `maxNestingDepth`. -/
def maxNestingDepth : Nat := 10000

mutual
/-- One JSON value at the head of the text (after white space) and what
follows it.  `depth` counts the arrays and objects that are open. -/
def parseValue : Nat → Nat → List Char → Option (JValue × List Char)
  | 0, _, _ => none
  | fuel + 1, depth, cs =>
    match skipWS cs with
    | [] => none
    | c :: rest =>
      if c == '"' then
        match parseStringBody 0 [] rest with
        | some (s, r) => some (JValue.str s, r)
        | none => none
      else if c == '[' then
        if maxNestingDepth ≤ depth then none
        else
          match skipWS rest with
          | ']' :: r => some (JValue.arr [], r)
          | _ => parseElements fuel (depth + 1) [] rest
      else if c == '{' then
        if maxNestingDepth ≤ depth then none
        else
          match skipWS rest with
          | '}' :: r => some (JValue.obj [], r)
          | _ => parseMembers fuel (depth + 1) [] rest
      else if c == 't' then (parseLiteral "true".toList (c :: rest)).map fun r => (JValue.bool true, r)
      else if c == 'f' then (parseLiteral "false".toList (c :: rest)).map fun r => (JValue.bool false, r)
      else if c == 'n' then (parseLiteral "null".toList (c :: rest)).map fun r => (JValue.null, r)
      else if c == '-' || c.isDigit then (parseNumber (c :: rest)).map fun r => (JValue.num, r)
      else none
/-- The elements of an array from the head of an element on, up to the
closing bracket. -/
def parseElements : Nat → Nat → List JValue → List Char → Option (JValue × List Char)
  | 0, _, _, _ => none
  | fuel + 1, depth, acc, cs =>
    match parseValue fuel depth cs with
    | none => none
    | some (v, rest) =>
      match skipWS rest with
      | c :: r =>
        if c == ',' then parseElements fuel depth (acc ++ [v]) r
        else if c == ']' then some (JValue.arr (acc ++ [v]), r)
        else none
      | [] => none
/-- The members of an object from the head of a key on, up to the closing
brace. -/
def parseMembers : Nat → Nat → List (List Char × JValue) → List Char →
    Option (JValue × List Char)
  | 0, _, _, _ => none
  | fuel + 1, depth, acc, cs =>
    match skipWS cs with
    | c0 :: r0 =>
      if c0 == '"' then
        match parseStringBody 0 [] r0 with
        | none => none
        | some (k, r1) =>
          match skipWS r1 with
          | c1 :: r2 =>
            if c1 == ':' then
              match parseValue fuel depth r2 with
              | none => none
              | some (v, r3) =>
                match skipWS r3 with
                | c :: r4 =>
                  if c == ',' then parseMembers fuel depth (acc ++ [(k, v)]) r4
                  else if c == '}' then some (JValue.obj (acc ++ [(k, v)]), r4)
                  else none
                | [] => none
            else none
          | [] => none
      else none
    | [] => none
end

/-- Go's `foldName` on one character, as far as it can reach an ASCII letter:
ASCII letters fold to upper case, the long s to `S`, the Kelvin sign to `K`. -/
def foldRune (c : Char) : Char :=
  if c.toNat == 0x17F then 'S' else if c.toNat == 0x212A then 'K' else c.toUpper

/-- Whether the object key `key` selects the field with JSON name `name`:
equal up to case folding. -/
def keyMatches (key : List Char) (name : String) : Bool :=
  key.map foldRune == name.toList.map foldRune

/-- Store one object member into a record: a string sets the field, `null`
leaves it, any other value for a field of the record is a type error (`none`);
members of other names are skipped. -/
def setMember (r : DNSRecord) (kv : List Char × JValue) : Option DNSRecord :=
  if keyMatches kv.1 "hostname" then
    match kv.2 with
    | JValue.str s => some { r with Hostname := String.mk s }
    | JValue.null => some r
    | _ => none
  else if keyMatches kv.1 "ip" then
    match kv.2 with
    | JValue.str s => some { r with IP := String.mk s }
    | JValue.null => some r
    | _ => none
  else some r

/-- Decode one array element into a zero record. -/
def decodeElement : JValue → Option DNSRecord
  | JValue.obj kvs => kvs.foldlM setMember { Hostname := "", IP := "" }
  | JValue.null => some { Hostname := "", IP := "" }
  | _ => none

/-- Decode the elements of an array in order; a type error in any of them
(`none`) is the error of the whole. -/
def decodeElements : List JValue → Option (List DNSRecord)
  | [] => some []
  | v :: vs =>
    match decodeElement v, decodeElements vs with
    | some r, some rs => some (r :: rs)
    | _, _ => none

/-- Go `json.NewDecoder(body).Decode(&entries)` on a nil `entries`. -/
def jsonDecodeRecords (body : String) : Except String Records :=
  if (skipWS body.toList).isEmpty then .error "EOF"
  else
    match parseValue (body.length + 1) 0 body.toList with
    | none => .error "invalid JSON"
    | some (JValue.null, _) => .ok none
    | some (JValue.arr xs, _) =>
      match decodeElements xs with
      | some rs => .ok (some rs)
      | none => .error "json: cannot unmarshal into Go value of type model.DNSRecord"
    | some _ => .error "json: cannot unmarshal into Go value of type []model.DNSRecord"

/-- The environment given by the reference models and a transport. -/
def referenceEnv (transport : List Request → Request → Except String Response) : Env :=
  { urlParse := urlParse, jsonDecode := jsonDecodeRecords, Do := transport }

/-! ## JSON text of a record list, as `json.Marshal` writes it -/

def hexDigit (n : Nat) : Char := "0123456789abcdef".toList.getD n '0'

/-- How `json.Marshal` writes one character of a string (Go up to 1.21; later
releases write `\b` and `\f` for U+0008 and U+000C, which decode alike). -/
def escapeChar (c : Char) : List Char :=
  if c == '"' then ['\\', '"']
  else if c == '\\' then ['\\', '\\']
  else if c == '\n' then ['\\', 'n']
  else if c == '\r' then ['\\', 'r']
  else if c == '\t' then ['\\', 't']
  else if decide (c.toNat < 0x20) || c == '<' || c == '>' || c == '&' ||
      c.toNat == 0x2028 || c.toNat == 0x2029 then
    ['\\', 'u', hexDigit (c.toNat / 4096 % 16), hexDigit (c.toNat / 256 % 16),
      hexDigit (c.toNat / 16 % 16), hexDigit (c.toNat % 16)]
  else [c]

def jsonQuote (s : String) : List Char := '"' :: s.toList.flatMap escapeChar ++ ['"']

/-- One record as a JSON object: the members `hostname` and `ip`, in that
order, without white space. -/
def marshalRecord (r : DNSRecord) : List Char :=
  '{' :: (jsonQuote "hostname" ++ ':' :: (jsonQuote r.Hostname ++ ',' ::
    (jsonQuote "ip" ++ ':' :: (jsonQuote r.IP ++ ['}']))))

def marshalRecordList : List DNSRecord → List Char
  | [] => []
  | [r] => marshalRecord r
  | r :: rs => marshalRecord r ++ ',' :: marshalRecordList rs

/-- Go `json.Marshal` of a `[]model.DNSRecord`: `null` for the nil slice, else
the array of the records' objects. -/
def marshalRecords : Records → String
  | none => "null"
  | some rs => String.mk ('[' :: marshalRecordList rs ++ [']'])

/-- The JSON value of a record's object. -/
def recordValue (r : DNSRecord) : JValue :=
  JValue.obj [("hostname".toList, JValue.str r.Hostname.toList), ("ip".toList, JValue.str r.IP.toList)]

/-! ## Concrete environments -/

/-- The two records of the repository's "multiple entries" tests. -/
def exampleRecords : List DNSRecord :=
  [{ Hostname := "example.com", IP := "192.168.1.1" },
   { Hostname := "example.com", IP := "192.168.1.2" }]


/-- A transport that answers every request with the same response. -/
def constantTransport (res : Response) : List Request → Request → Except String Response :=
  fun _ _ => .ok res

/-- A response of the given status with content type `application/json`. -/
def jsonResponse (status : Int) (body : String) : Response :=
  { StatusCode := status
    Header := [("Content-Type", ["application/json"])]
    Body := some { data := body, repr := "&\x7b\x7d" } }

/-- A status-200 response with a YAML body and content type. -/
def yamlResponse : Response :=
  { StatusCode := 200
    Header := [("Content-Type", ["application/x-yaml"])]
    Body := some { data := "---\n- hostname: example.com\n  ip: 192.168.1.1", repr := "&\x7b\x7d" } }

/-- A client as `NewClient` builds it for `https://api.example.com`. -/
def exampleClient : Client := { APIAddress := "https://api.example.com", SSLVerify := true }

/-- A status-500 response whose body reads `{"error":"internal server error"}`;
`repr` is what `%v` prints for the body reader of an `http.Client` response (a
pointer to a struct of addresses and flags). -/
def serverErrorResponse : Response :=
  { StatusCode := 500
    Header := [("Content-Type", ["application/json"])]
    Body := some { data := "\x7b\"error\":\"internal server error\"\x7d"
                   repr := "&\x7b0xc00019e040 \x7b0 0\x7d false <nil> 0x6b4060 0x6b3fe0\x7d" } }

/-- A managed entry as stored after a first apply. -/
def exampleResource : ResourceData :=
  { Id := "example.com|192.168.1.1", hostname := "example.com", ip_address := "192.168.1.1",
    append := false }

/-- Create and Update in the words of the specification: call
`PostDNSEntry(hostname, ip_address, append)`; when it fails return the client
error as diagnostics, without a Read; otherwise return what
`resourceDnsEntryRead` returns. -/
def upsertThenRead (env : Env) (c : Client) (d : ResourceData) (log : List Request) : Lifecycle :=
  match PostDNSEntry env c log d.hostname d.ip_address d.append with
  | ((_, some err), log1) => { outcome := .returns (FromErr (some err)), d := d, log := log1 }
  | ((_, none), log1) => resourceDnsEntryRead env c d log1

/-! ## Theorems -/

theorem doRequest_non200 (env : Env) (c : Client) (log : List Request) (method route : String)
    (body : Option SetDNSRecordRequest)
    (hsrv : ∀ req res, env.Do log req = .ok res → res.StatusCode ≠ 200) :
    ∃ err log1, doRequest env c log method route body = (.error err, log1) := by
  simp only [doRequest]
  split
  · exact ⟨_, _, rfl⟩
  · split
    · exact ⟨_, _, rfl⟩
    · rename_i res hdo
      have h := hsrv _ _ hdo
      simp [h]

/-- C1: an empty hostname (Get, Delete, Post) or an empty ip (Post) is
rejected with a non-nil error and nil records, and the request log is left as
it was: no HTTP request is issued. -/
theorem empty_argument_fails_before_any_request (env : Env) (c : Client) (log : List Request)
    (h ip : String) (a : Bool) :
    GetDNSEntry env c log "" = ((none, some "hostname must be provided"), log) ∧
    DeleteDNSEntry env c log "" = (some "hostname must be provided", log) ∧
    PostDNSEntry env c log "" ip a = ((none, some "hostname and ip must be provided"), log) ∧
    PostDNSEntry env c log h "" a = ((none, some "hostname and ip must be provided"), log) := by
  refine ⟨?_, ?_, ?_, ?_⟩
  · simp [GetDNSEntry]
  · simp [DeleteDNSEntry]
  · simp [PostDNSEntry]
  · simp [PostDNSEntry]

/-- C2: when every response that `http.Client.Do` hands back has a status
other than 200,
each of the four operations returns a non-nil error, and the three that return
records return the nil slice, whatever body and content type the response
has. -/
theorem non200_status_is_error (env : Env) (c : Client) (log : List Request)
    (h ip : String) (a : Bool)
    (hsrv : ∀ req res, env.Do log req = .ok res → res.StatusCode ≠ 200) :
    ((GetAllDNSEntries env c log).1.1 = none ∧ (GetAllDNSEntries env c log).1.2 ≠ none) ∧
    ((GetDNSEntry env c log h).1.1 = none ∧ (GetDNSEntry env c log h).1.2 ≠ none) ∧
    ((PostDNSEntry env c log h ip a).1.1 = none ∧ (PostDNSEntry env c log h ip a).1.2 ≠ none) ∧
    (DeleteDNSEntry env c log h).1 ≠ none := by
  refine ⟨?_, ?_, ?_, ?_⟩
  · obtain ⟨err, log1, hr⟩ := doRequest_non200 env c log "GET" "dns" none hsrv
    simp [GetAllDNSEntries, hr]
  · unfold GetDNSEntry
    split
    · simp
    · obtain ⟨err, log1, hr⟩ := doRequest_non200 env c log "GET" ("dns/" ++ h) none hsrv
      simp [hr]
  · unfold PostDNSEntry
    split
    · simp
    · obtain ⟨err, log1, hr⟩ := doRequest_non200 env c log "POST"
        (if a then "dns/" ++ h ++ "?append=true" else "dns/" ++ h) (some { IPs := [ip] }) hsrv
      simp [hr]
  · unfold DeleteDNSEntry
    split
    · simp
    · obtain ⟨err, log1, hr⟩ := doRequest_non200 env c log "DELETE" ("dns/" ++ h) none hsrv
      simp [hr]

theorem non200_status_is_error_witness :
    ((GetAllDNSEntries (referenceEnv (constantTransport (jsonResponse 201
        "[\x7b\"hostname\":\"example.com\",\"ip\":\"192.168.1.1\"\x7d]"))) exampleClient []).1.1 = none ∧
      (GetAllDNSEntries (referenceEnv (constantTransport (jsonResponse 201
        "[\x7b\"hostname\":\"example.com\",\"ip\":\"192.168.1.1\"\x7d]"))) exampleClient []).1.2 ≠ none) ∧
    ((GetDNSEntry (referenceEnv (constantTransport (jsonResponse 201
        "[\x7b\"hostname\":\"example.com\",\"ip\":\"192.168.1.1\"\x7d]"))) exampleClient []
        "example.com").1.1 = none ∧
      (GetDNSEntry (referenceEnv (constantTransport (jsonResponse 201
        "[\x7b\"hostname\":\"example.com\",\"ip\":\"192.168.1.1\"\x7d]"))) exampleClient []
        "example.com").1.2 ≠ none) ∧
    ((PostDNSEntry (referenceEnv (constantTransport (jsonResponse 201
        "[\x7b\"hostname\":\"example.com\",\"ip\":\"192.168.1.1\"\x7d]"))) exampleClient []
        "example.com" "192.168.1.1" false).1.1 = none ∧
      (PostDNSEntry (referenceEnv (constantTransport (jsonResponse 201
        "[\x7b\"hostname\":\"example.com\",\"ip\":\"192.168.1.1\"\x7d]"))) exampleClient []
        "example.com" "192.168.1.1" false).1.2 ≠ none) ∧
    (DeleteDNSEntry (referenceEnv (constantTransport (jsonResponse 201
        "[\x7b\"hostname\":\"example.com\",\"ip\":\"192.168.1.1\"\x7d]"))) exampleClient []
        "example.com").1 ≠ none :=
  non200_status_is_error _ exampleClient [] "example.com" "192.168.1.1" false
    (by intro req res hdo
        simp only [referenceEnv, constantTransport, jsonResponse, Except.ok.injEq] at hdo
        subst hdo
        decide)

/-- C3, as the code has it: a response whose Content-Type is not exactly
`application/json` yields nil records; the error is non-nil when the response
has a body, and nil when its `Body` is nil. -/
theorem decodeDNSRecords_other_content_type (env : Env) (res : Response)
    (hct : res.headerGet "Content-Type" ≠ "application/json") :
    decodeDNSRecords env res =
      match res.Body with
      | some _ =>
        (none, some ("unexpected response content-type: " ++ res.headerGet "Content-Type"))
      | none => (none, none) := by
  unfold decodeDNSRecords
  cases res.Body with
  | none => rfl
  | some b => simp [hct]

theorem decodeDNSRecords_other_content_type_witness :
    yamlResponse.headerGet "Content-Type" ≠ "application/json" ∧
    decodeDNSRecords (referenceEnv (constantTransport (jsonResponse 200 "[]"))) yamlResponse =
      match yamlResponse.Body with
      | some _ =>
        (none, some ("unexpected response content-type: " ++ yamlResponse.headerGet "Content-Type"))
      | none => (none, none) :=
  ⟨by decide, decodeDNSRecords_other_content_type _ yamlResponse (by decide)⟩

/-- C3 fails for a nil body: with Content-Type `application/x-yaml` and a nil
`Body`, `decodeDNSRecords` returns nil records and a nil error. -/
theorem decodeDNSRecords_nil_body_returns_no_error :
    (({ StatusCode := 200, Header := [("Content-Type", ["application/x-yaml"])], Body := none } :
        Response).headerGet "Content-Type" ≠ "application/json") ∧
    decodeDNSRecords (referenceEnv (constantTransport (jsonResponse 200 "[]")))
        { StatusCode := 200, Header := [("Content-Type", ["application/x-yaml"])], Body := none } =
      (none, none) := by
  constructor
  · decide
  · rfl

/-- C5: when `NewClient` succeeds on an address with neither scheme prefix, the
stored address is `https://` followed by the address (and by `:port` for a
non-zero port) and the diagnostics are the single warning "URL Lacks
Protocol"; on an address with one of the prefixes the diagnostics are nil. -/
theorem NewClient_scheme_default (env : Env) (apiURL : String) (apiPort : Int) (sslVerify : Bool)
    (c : Client) (diags : Diagnostics)
    (h : NewClient env apiURL apiPort sslVerify = (some c, diags)) :
    ((hasPrefix apiURL "http://" = false ∧ hasPrefix apiURL "https://" = false) →
      c.APIAddress = "https://" ++ apiURL ++ (if apiPort = 0 then "" else ":" ++ toString apiPort) ∧
      diags = [{ Severity := Severity.Warning
                 Summary := "URL Lacks Protocol"
                 Detail := "API URL lacks 'http://' or 'https://'. Defaulting to 'https://'.\n" }]) ∧
    ((hasPrefix apiURL "http://" = true ∨ hasPrefix apiURL "https://" = true) → diags = []) := by
  unfold NewClient at h
  simp only [] at h
  split at h
  · simp [FromErr] at h
  · split at h
    · simp [FromErr] at h
    · simp only [Prod.mk.injEq, Option.some.injEq] at h
      obtain ⟨hc, hd⟩ := h
      subst hc
      subst hd
      constructor
      · rintro ⟨h1, h2⟩
        by_cases hp : apiPort = 0
        · simp [withScheme, h1, h2, hp, lacksProtocolWarning]
        · simp [withScheme, h1, h2, hp, lacksProtocolWarning, String.append_assoc]
      · rintro (h1 | h1) <;> simp [h1]

theorem NewClient_scheme_default_witness :
    NewClient (referenceEnv (constantTransport (jsonResponse 200 "[]"))) "api.example.com" 0 true =
      (some { APIAddress := "https://api.example.com", SSLVerify := true }, [lacksProtocolWarning]) ∧
    (((hasPrefix "api.example.com" "http://" = false ∧
        hasPrefix "api.example.com" "https://" = false) →
      (Client.mk "https://api.example.com" true).APIAddress =
          "https://" ++ "api.example.com" ++ (if (0 : Int) = 0 then "" else ":" ++ toString (0 : Int)) ∧
      [lacksProtocolWarning] =
        [{ Severity := Severity.Warning
           Summary := "URL Lacks Protocol"
           Detail := "API URL lacks 'http://' or 'https://'. Defaulting to 'https://'.\n" }]) ∧
     ((hasPrefix "api.example.com" "http://" = true ∨
        hasPrefix "api.example.com" "https://" = true) → [lacksProtocolWarning] = [])) :=
  ⟨by decide,
   NewClient_scheme_default (referenceEnv (constantTransport (jsonResponse 200 "[]")))
    "api.example.com" 0 true _ _ (by decide)⟩

/-- C6: when the address, after the scheme default, parses to a URL with a
port, `NewClient` returns a nil client and exactly one `Error` diagnostic with
the summary below, for every port argument; the scheme warning is not
returned. -/
theorem NewClient_rejects_port_in_url (env : Env) (apiURL : String) (apiPort : Int)
    (sslVerify : Bool) (u : URL)
    (hparse : env.urlParse (withScheme apiURL) = .ok u) (hport : u.Port ≠ "") :
    NewClient env apiURL apiPort sslVerify =
      (none, [{ Severity := Severity.Error
                Summary := "API URL should not contain a port. Use the separate field api_port"
                Detail := "" }]) := by
  unfold NewClient
  simp only []
  rw [hparse]
  simp only []
  rw [if_pos (by simpa using hport)]
  rfl

theorem NewClient_rejects_port_in_url_witness :
    (referenceEnv (constantTransport (jsonResponse 200 "[]"))).urlParse
        (withScheme "api.example.com:443") = .ok { Scheme := "https", Host := "api.example.com:443" } ∧
    (URL.mk "https" "api.example.com:443").Port ≠ "" ∧
    NewClient (referenceEnv (constantTransport (jsonResponse 200 "[]"))) "api.example.com:443" 8080
        true =
      (none, [{ Severity := Severity.Error
                Summary := "API URL should not contain a port. Use the separate field api_port"
                Detail := "" }]) :=
  ⟨by decide, by decide,
   NewClient_rejects_port_in_url _ "api.example.com:443" 8080 true
    { Scheme := "https", Host := "api.example.com:443" } (by decide) (by decide)⟩

/-- C7, as the code has it: when `NewClient` succeeds, a zero port argument
stores the address as given (after the scheme default), path, query and
fragment included; and whenever that address is exactly scheme `://` host of
the parsed URL, the stored address is scheme `://` host, followed by `:port`
exactly when the port argument is non-zero. -/
theorem NewClient_stored_address (env : Env) (apiURL : String) (apiPort : Int) (sslVerify : Bool)
    (c : Client) (diags : Diagnostics) (u : URL)
    (h : NewClient env apiURL apiPort sslVerify = (some c, diags))
    (hparse : env.urlParse (withScheme apiURL) = .ok u) :
    (apiPort = 0 → c.APIAddress = withScheme apiURL) ∧
    (withScheme apiURL = u.Scheme ++ "://" ++ u.Host →
      c.APIAddress =
        u.Scheme ++ "://" ++ u.Host ++ (if apiPort = 0 then "" else ":" ++ toString apiPort)) := by
  unfold NewClient at h
  simp only [] at h
  rw [hparse] at h
  simp only [] at h
  split at h
  · simp [FromErr] at h
  · simp only [Prod.mk.injEq, Option.some.injEq] at h
    obtain ⟨hc, -⟩ := h
    subst hc
    constructor
    · intro hp
      simp [hp]
    · intro hw
      by_cases hp : apiPort = 0
      · simp [hp, hw]
      · simp [hp, ← hw, String.append_assoc]

theorem NewClient_stored_address_witness :
    NewClient (referenceEnv (constantTransport (jsonResponse 200 "[]"))) "https://api.example.com"
        8080 true = (some { APIAddress := "https://api.example.com:8080", SSLVerify := true }, []) ∧
    (referenceEnv (constantTransport (jsonResponse 200 "[]"))).urlParse
        (withScheme "https://api.example.com") = .ok { Scheme := "https", Host := "api.example.com" } ∧
    (((8080 : Int) = 0 →
        (Client.mk "https://api.example.com:8080" true).APIAddress =
          withScheme "https://api.example.com") ∧
     (withScheme "https://api.example.com" =
        (URL.mk "https" "api.example.com").Scheme ++ "://" ++ (URL.mk "https" "api.example.com").Host →
      (Client.mk "https://api.example.com:8080" true).APIAddress =
        (URL.mk "https" "api.example.com").Scheme ++ "://" ++ (URL.mk "https" "api.example.com").Host ++
          (if (8080 : Int) = 0 then "" else ":" ++ toString (8080 : Int)))) :=
  ⟨by decide, by decide,
   NewClient_stored_address (referenceEnv (constantTransport (jsonResponse 200 "[]")))
    "https://api.example.com" 8080 true { APIAddress := "https://api.example.com:8080", SSLVerify := true }
    [] { Scheme := "https", Host := "api.example.com" } (by decide) (by decide)⟩

/-- C7 fails on an address with a path: for `https://api.example.com/base` and
port argument 0, `url.Parse` gives scheme `https` and host `api.example.com`,
and the stored address is `https://api.example.com/base`, not
`https://api.example.com`. -/
theorem NewClient_keeps_path_of_input :
    NewClient (referenceEnv (constantTransport (jsonResponse 200 "[]")))
        "https://api.example.com/base" 0 true =
      (some { APIAddress := "https://api.example.com/base", SSLVerify := true }, []) ∧
    urlParse "https://api.example.com/base" = .ok { Scheme := "https", Host := "api.example.com" } ∧
    "https://api.example.com/base" ≠ "https" ++ "://" ++ "api.example.com" := by
  refine ⟨by decide, by decide, by decide⟩

/-- C8, as the code has it: for a non-empty hostname and ip, `PostDNSEntry`
issues exactly one request when `url.Parse` accepts the URL
`APIAddress + "/dns/" + h` (followed by `?append=true` iff the flag is set):
method POST, that URL, Content-Type `application/json`, and the body
`{IPs: [ip]}` in JSON; when `url.Parse` rejects the URL it issues none. -/
theorem PostDNSEntry_issues_one_request (env : Env) (c : Client) (log : List Request)
    (h ip : String) (a : Bool) (hh : h ≠ "") (hip : ip ≠ "") :
    (PostDNSEntry env c log h ip a).2 =
      match env.urlParse (c.APIAddress ++ "/dns/" ++ h ++ (if a then "?append=true" else "")) with
      | .ok _ =>
        log ++ [{ Method := "POST"
                  URL := c.APIAddress ++ "/dns/" ++ h ++ (if a then "?append=true" else "")
                  ContentType := some "application/json"
                  Body := some { IPs := [ip] }
                  InsecureSkipVerify := !c.SSLVerify }]
      | .error _ => log := by
  have hurl : c.APIAddress ++ "/" ++ (if a then "dns/" ++ h ++ "?append=true" else "dns/" ++ h) =
      c.APIAddress ++ "/dns/" ++ h ++ (if a then "?append=true" else "") := by
    have h0 : "/" ++ "dns/" = "/dns/" := by decide
    cases a
    · simp [String.append_assoc]
      rw [← String.append_assoc "/" "dns/" h, h0]
    · simp [String.append_assoc]
      rw [← String.append_assoc "/" "dns/" (h ++ "?append=true"), h0]
  have hcond : (h == "" || ip == "") = false := by simp [hh, hip]
  unfold PostDNSEntry
  simp only [hcond, Bool.false_eq_true, if_false, doRequest, hurl, Option.map_some']
  cases env.urlParse (c.APIAddress ++ "/dns/" ++ h ++ (if a then "?append=true" else "")) with
  | error e => rfl
  | ok u =>
    simp only []
    cases env.Do log _ with
    | error e => rfl
    | ok res =>
      by_cases hs : (res.StatusCode != 200) = true <;> simp [hs]

theorem PostDNSEntry_issues_one_request_witness :
    ("example.com" ≠ "" ∧ "192.168.1.2" ≠ "") ∧
    (PostDNSEntry (referenceEnv (constantTransport (jsonResponse 200
        "[\x7b\"hostname\":\"example.com\",\"ip\":\"192.168.1.2\"\x7d]"))) exampleClient []
        "example.com" "192.168.1.2" true).2 =
      match (referenceEnv (constantTransport (jsonResponse 200
          "[\x7b\"hostname\":\"example.com\",\"ip\":\"192.168.1.2\"\x7d]"))).urlParse
          (exampleClient.APIAddress ++ "/dns/" ++ "example.com" ++
            (if true then "?append=true" else "")) with
      | .ok _ =>
        [] ++ [{ Method := "POST"
                 URL := exampleClient.APIAddress ++ "/dns/" ++ "example.com" ++
                   (if true then "?append=true" else "")
                 ContentType := some "application/json"
                 Body := some { IPs := ["192.168.1.2"] }
                 InsecureSkipVerify := !exampleClient.SSLVerify }]
      | .error _ => [] :=
  ⟨⟨by decide, by decide⟩,
   PostDNSEntry_issues_one_request _ exampleClient [] "example.com" "192.168.1.2" true
    (by decide) (by decide)⟩

/-- C8 fails when the URL cannot be parsed: for the hostname `%`,
`http.NewRequest` rejects `https://api.example.com/dns/%`, and `PostDNSEntry`
returns an error without issuing a request. -/
theorem PostDNSEntry_unparsable_url_issues_no_request :
    PostDNSEntry (referenceEnv (constantTransport (jsonResponse 200
        "[\x7b\"hostname\":\"%\",\"ip\":\"192.168.1.1\"\x7d]"))) exampleClient [] "%" "192.168.1.1" false =
      ((none, some ("failed to create request: " ++
          "parse \"https://api.example.com/dns/%\": invalid URL escape \"%\"")), []) := by
  decide

/-- C9: when `GetDNSEntry` for the resource's hostname returns a non-empty
record list and no error, `resourceDnsEntryRead` returns nil diagnostics and
sets the id to hostname `|` first record's IP, whatever records follow. -/
theorem resourceDnsEntryRead_sets_id (env : Env) (c : Client) (d : ResourceData)
    (log log1 : List Request) (r : DNSRecord) (rs : List DNSRecord)
    (hget : GetDNSEntry env c log d.hostname = ((some (r :: rs), none), log1)) :
    (resourceDnsEntryRead env c d log).outcome = Outcome.returns [] ∧
    (resourceDnsEntryRead env c d log).d.Id = d.hostname ++ "|" ++ r.IP := by
  simp [resourceDnsEntryRead, ResourceData.Get, hget, ResourceData.SetId, ResourceData.Set,
    FieldDescDNSEntryIpAddress, FieldDNSEntryHostname, FieldDNSEntryIpAddress]

theorem resourceDnsEntryRead_sets_id_witness :
    GetDNSEntry (referenceEnv (constantTransport (jsonResponse 200
        "[\x7b\"hostname\":\"example.com\",\"ip\":\"192.168.1.1\"\x7d,\x7b\"hostname\":\"example.com\",\"ip\":\"192.168.1.2\"\x7d]")))
        exampleClient []
        (ResourceData.mk "" "example.com" "192.168.1.1" false).hostname =
      ((some [{ Hostname := "example.com", IP := "192.168.1.1" },
              { Hostname := "example.com", IP := "192.168.1.2" }], none),
       [{ Method := "GET", URL := "https://api.example.com/dns/example.com", ContentType := none,
          Body := none, InsecureSkipVerify := false }]) ∧
    ((resourceDnsEntryRead (referenceEnv (constantTransport (jsonResponse 200
        "[\x7b\"hostname\":\"example.com\",\"ip\":\"192.168.1.1\"\x7d,\x7b\"hostname\":\"example.com\",\"ip\":\"192.168.1.2\"\x7d]")))
        exampleClient (ResourceData.mk "" "example.com" "192.168.1.1" false) []).outcome =
        Outcome.returns [] ∧
     (resourceDnsEntryRead (referenceEnv (constantTransport (jsonResponse 200
        "[\x7b\"hostname\":\"example.com\",\"ip\":\"192.168.1.1\"\x7d,\x7b\"hostname\":\"example.com\",\"ip\":\"192.168.1.2\"\x7d]")))
        exampleClient (ResourceData.mk "" "example.com" "192.168.1.1" false) []).d.Id =
        (ResourceData.mk "" "example.com" "192.168.1.1" false).hostname ++ "|" ++
          (DNSRecord.mk "example.com" "192.168.1.1").IP) :=
  ⟨by decide,
   resourceDnsEntryRead_sets_id _ exampleClient (ResourceData.mk "" "example.com" "192.168.1.1" false)
    [] [{ Method := "GET", URL := "https://api.example.com/dns/example.com", ContentType := none,
          Body := none, InsecureSkipVerify := false }]
    { Hostname := "example.com", IP := "192.168.1.1" }
    [{ Hostname := "example.com", IP := "192.168.1.2" }] (by decide)⟩

/-- C10 at a failing input: the state holds `ip_address = 10.0.0.1` and the
server answers with the single record `example.com -> 10.0.0.2`.  After
`resourceDnsEntryRead` the id is `example.com|10.0.0.2`, but the field
`ip_address` still holds `10.0.0.1`: the code writes under the key
`FieldDescDNSEntryIpAddress`, which is no field of the schema. -/
theorem resourceDnsEntryRead_does_not_store_ip :
    (resourceDnsEntryRead (referenceEnv (constantTransport (jsonResponse 200
        "[\x7b\"hostname\":\"example.com\",\"ip\":\"10.0.0.2\"\x7d]")))
        exampleClient (ResourceData.mk "" "example.com" "10.0.0.1" false) []).outcome =
      Outcome.returns [] ∧
    (resourceDnsEntryRead (referenceEnv (constantTransport (jsonResponse 200
        "[\x7b\"hostname\":\"example.com\",\"ip\":\"10.0.0.2\"\x7d]")))
        exampleClient (ResourceData.mk "" "example.com" "10.0.0.1" false) []).d =
      { Id := "example.com|10.0.0.2", hostname := "example.com", ip_address := "10.0.0.1",
        append := false } ∧
    ((ResourceData.mk "example.com|10.0.0.2" "example.com" "10.0.0.1" false).Get
        FieldDNSEntryIpAddress = some (FieldValue.str "10.0.0.1")) := by
  refine ⟨by decide, by decide, by decide⟩

/-! ### Decoding what `json.Marshal` wrote -/

theorem ishex_hexDigit : ∀ k, k < 16 → ishex (hexDigit k) = true := by decide

theorem unhex_hexDigit : ∀ k, k < 16 → unhex (hexDigit k) = k := by decide

theorem hex4_hexDigits (n : Nat) (hn : n < 65536) :
    hex4 (hexDigit (n / 4096 % 16)) (hexDigit (n / 256 % 16)) (hexDigit (n / 16 % 16))
      (hexDigit (n % 16)) = n := by
  unfold hex4
  rw [unhex_hexDigit _ (Nat.mod_lt _ (by decide)), unhex_hexDigit _ (Nat.mod_lt _ (by decide)),
    unhex_hexDigit _ (Nat.mod_lt _ (by decide)), unhex_hexDigit _ (Nat.mod_lt _ (by decide))]
  omega

theorem parseStringBody_plain (acc rest : List Char) (c : Char) (h1 : c ≠ '"') (h2 : c ≠ '\\')
    (h3 : ¬ c.toNat < 0x20) :
    parseStringBody 0 acc (c :: rest) = parseStringBody 0 (acc ++ [c]) rest := by
  rw [parseStringBody.eq_def]
  simp [h1, h2, h3]

theorem parseStringBody_u4 (acc rest : List Char) (n : Nat) (hn : n < 0xD800) :
    parseStringBody 0 acc ('\\' :: 'u' :: hexDigit (n / 4096 % 16) :: hexDigit (n / 256 % 16) ::
      hexDigit (n / 16 % 16) :: hexDigit (n % 16) :: rest) =
    parseStringBody 0 (acc ++ [Char.ofNat n]) rest := by
  have hx := hex4_hexDigits n (by omega)
  have hs : ¬ (0xD800 ≤ n) := by omega
  rw [parseStringBody.eq_def]
  simp [ishex_hexDigit _ (Nat.mod_lt _ (show 0 < 16 by decide)), hx, hs]

theorem parseStringBody_escapeChar (acc rest : List Char) (c : Char) :
    parseStringBody 0 acc (escapeChar c ++ rest) = parseStringBody 0 (acc ++ [c]) rest := by
  unfold escapeChar
  by_cases h1 : c = '"'
  · subst h1
    rw [parseStringBody.eq_def]
    simp [simpleEscape]
  by_cases h2 : c = '\\'
  · subst h2
    rw [parseStringBody.eq_def]
    simp [simpleEscape]
  by_cases h3 : c = '\n'
  · subst h3
    rw [parseStringBody.eq_def]
    simp [simpleEscape]
  by_cases h4 : c = '\r'
  · subst h4
    rw [parseStringBody.eq_def]
    simp [simpleEscape]
  by_cases h5 : c = '\t'
  · subst h5
    rw [parseStringBody.eq_def]
    simp [simpleEscape]
  simp only [h1, h2, h3, h4, h5, beq_iff_eq, if_false]
  split
  · rename_i hu
    have hn : c.toNat < 0xD800 := by
      simp only [Bool.or_eq_true, decide_eq_true_eq, beq_iff_eq] at hu
      rcases hu with ((((hu | hu) | hu) | hu) | hu) | hu
      · omega
      · subst hu; decide
      · subst hu; decide
      · subst hu; decide
      · omega
      · omega
    simp only [List.cons_append, List.nil_append]
    rw [parseStringBody_u4 acc rest c.toNat hn, Char.ofNat_toNat]
  · rename_i hu
    simp only [Bool.or_eq_true, decide_eq_true_eq, beq_iff_eq, not_or] at hu
    simp only [List.cons_append, List.nil_append]
    exact parseStringBody_plain acc rest c h1 h2 (by omega)

theorem parseStringBody_escaped (s acc rest : List Char) :
    parseStringBody 0 acc (s.flatMap escapeChar ++ '"' :: rest) = some (acc ++ s, rest) := by
  induction s generalizing acc with
  | nil =>
    rw [parseStringBody.eq_def]
    simp
  | cons c cs ih =>
    simp only [List.flatMap_cons, List.append_assoc]
    rw [parseStringBody_escapeChar, ih]
    simp

theorem parseStringBody_jsonQuote (s : String) (rest : List Char) :
    parseStringBody 0 [] ((jsonQuote s).tail ++ rest) = some (s.toList, rest) := by
  unfold jsonQuote
  simp only [List.cons_append, List.tail_cons, List.append_assoc, List.singleton_append]
  rw [parseStringBody_escaped]
  rfl

theorem jsonQuote_append (s : String) (rest : List Char) :
    jsonQuote s ++ rest = '"' :: ((jsonQuote s).tail ++ rest) := by
  simp [jsonQuote]

theorem parseValue_jsonQuote (fuel depth : Nat) (s : String) (rest : List Char) :
    parseValue (fuel + 1) depth (jsonQuote s ++ rest) = some (JValue.str s.toList, rest) := by
  rw [jsonQuote_append, parseValue]
  simp [skipWS, isSpace, parseStringBody_jsonQuote]

theorem parseMembers_comma (fuel depth : Nat) (acc : List (List Char × JValue)) (k v : String)
    (rest : List Char) :
    parseMembers (fuel + 2) depth acc (jsonQuote k ++ ':' :: (jsonQuote v ++ ',' :: rest)) =
      parseMembers (fuel + 1) depth (acc ++ [(k.toList, JValue.str v.toList)]) rest := by
  rw [jsonQuote_append, parseMembers]
  simp [skipWS, isSpace, parseStringBody_jsonQuote, parseValue_jsonQuote]

theorem parseMembers_last (fuel depth : Nat) (acc : List (List Char × JValue)) (k v : String)
    (rest : List Char) :
    parseMembers (fuel + 2) depth acc (jsonQuote k ++ ':' :: (jsonQuote v ++ '}' :: rest)) =
      some (JValue.obj (acc ++ [(k.toList, JValue.str v.toList)]), rest) := by
  rw [jsonQuote_append, parseMembers]
  simp [skipWS, isSpace, parseStringBody_jsonQuote, parseValue_jsonQuote]

theorem parseValue_marshalRecord (fuel depth : Nat) (hd : depth < maxNestingDepth) (r : DNSRecord)
    (rest : List Char) :
    parseValue (fuel + 4) depth (marshalRecord r ++ rest) = some (recordValue r, rest) := by
  unfold marshalRecord
  rw [parseValue]
  have hq : ∀ t : List Char, skipWS (jsonQuote "hostname" ++ t) = jsonQuote "hostname" ++ t := by
    intro t
    rw [jsonQuote_append]
    simp [skipWS, isSpace]
  have hne : ∀ t : List Char, jsonQuote "hostname" ++ t = '"' :: ((jsonQuote "hostname").tail ++ t) :=
    fun t => jsonQuote_append _ t
  simp only [List.cons_append, List.append_assoc, List.singleton_append]
  simp only [skipWS, isSpace, List.dropWhile_cons]
  simp [Nat.not_le.mpr hd]
  split
  · rename_i r1 heq
    have h := hq (':' :: (jsonQuote r.Hostname ++ ',' :: (jsonQuote "ip" ++ ':' ::
      (jsonQuote r.IP ++ '}' :: rest))))
    simp only [skipWS] at h
    rw [h, hne] at heq
    simp at heq
  · rw [parseMembers_comma, parseMembers_last]
    rfl

theorem decodeElement_recordValue (r : DNSRecord) : decodeElement (recordValue r) = some r := by
  have h1 : keyMatches ['h', 'o', 's', 't', 'n', 'a', 'm', 'e'] "hostname" = true := by decide
  have h2 : keyMatches ['i', 'p'] "hostname" = false := by decide
  have h3 : keyMatches ['i', 'p'] "ip" = true := by decide
  simp [decodeElement, recordValue, setMember, h1, h2, h3]

theorem marshalRecordList_cons_cons (r r2 : DNSRecord) (rs : List DNSRecord) :
    marshalRecordList (r :: r2 :: rs) = marshalRecord r ++ ',' :: marshalRecordList (r2 :: rs) := by
  simp [marshalRecordList]

theorem marshalRecord_head (r : DNSRecord) : ∃ t, marshalRecord r = '{' :: t := ⟨_, rfl⟩

theorem marshalRecordList_head (r : DNSRecord) (rs : List DNSRecord) :
    ∃ t, marshalRecordList (r :: rs) = '{' :: t := by
  cases rs with
  | nil => exact ⟨_, rfl⟩
  | cons r2 rs => exact ⟨_, by rw [marshalRecordList_cons_cons]; rfl⟩

theorem parseElements_marshalRecordList (fuel depth : Nat) (hd : depth < maxNestingDepth)
    (r : DNSRecord) (rs : List DNSRecord) (acc : List JValue) (rest : List Char) :
    parseElements (fuel + (r :: rs).length + 4) depth acc (marshalRecordList (r :: rs) ++ ']' :: rest) =
      some (JValue.arr (acc ++ (r :: rs).map recordValue), rest) := by
  induction rs generalizing r acc with
  | nil =>
    show parseElements (fuel + 4 + 1) depth acc (marshalRecord r ++ ']' :: rest) = _
    rw [parseElements, parseValue_marshalRecord fuel depth hd]
    simp [skipWS, isSpace]
  | cons r2 rs ih =>
    rw [marshalRecordList_cons_cons]
    show parseElements (fuel + (r2 :: rs).length + 4 + 1) depth acc _ = _
    rw [parseElements]
    simp only [List.append_assoc, List.cons_append]
    rw [parseValue_marshalRecord (fuel + (r2 :: rs).length) depth hd]
    have h := ih r2 (acc ++ [recordValue r])
    simp only [List.length_cons, List.map_cons, List.append_assoc, List.singleton_append] at h
    simp [skipWS, isSpace]
    exact h

theorem decodeElements_recordValues (rs : List DNSRecord) :
    decodeElements (rs.map recordValue) = some rs := by
  induction rs with
  | nil => rfl
  | cons r rs ih => simp [decodeElements, decodeElement_recordValue, ih]

theorem length_marshalRecordList (r : DNSRecord) (rs : List DNSRecord) :
    (r :: rs).length + 2 ≤ (marshalRecordList (r :: rs)).length := by
  induction rs generalizing r with
  | nil => simp [marshalRecordList, marshalRecord, jsonQuote]; omega
  | cons r2 rs ih =>
    rw [marshalRecordList_cons_cons]
    have := ih r2
    simp only [List.length_append, List.length_cons] at this ⊢
    omega

theorem jsonDecodeRecords_marshalRecords (rs : Records) :
    jsonDecodeRecords (marshalRecords rs) = .ok rs := by
  cases rs with
  | none => decide
  | some rs =>
    cases rs with
    | nil => decide
    | cons r rs =>
      obtain ⟨t, ht⟩ := marshalRecordList_head r rs
      have hlen := length_marshalRecordList r rs
      simp only [List.length_cons] at hlen
      obtain ⟨k, hk⟩ : ∃ k, ('[' :: marshalRecordList (r :: rs) ++ [']']).length =
          k + (r :: rs).length + 4 := ⟨(marshalRecordList (r :: rs)).length - (r :: rs).length - 2, by
        simp only [List.cons_append, List.length_cons, List.length_append, List.length_nil]
        omega⟩
      have hp := parseElements_marshalRecordList k 1 (by decide) r rs [] []
      unfold jsonDecodeRecords marshalRecords
      simp only [String.length, String.toList]
      rw [hk]
      rw [parseValue]
      simp only [List.cons_append, skipWS, isSpace, List.dropWhile_cons]
      simp only [ht, List.cons_append, List.length_cons, List.nil_append] at hp ⊢
      have hde := decodeElements_recordValues (r :: rs)
      simp only [List.map_cons] at hde hp
      simp [maxNestingDepth, skipWS, isSpace, hp, hde]

/-- C4: for every record list `rs`, a response with Content-Type
`application/json` whose body is the JSON array of `rs` (objects with the keys
`hostname` and `ip`) decodes to exactly `rs`, with a nil error: same length,
same order, same hostname and ip in each place. -/
theorem decodeDNSRecords_returns_encoded_records
    (transport : List Request → Request → Except String Response) (res : Response) (b : Body)
    (rs : List DNSRecord) (hb : res.Body = some b) (hdata : b.data = marshalRecords (some rs))
    (hct : res.headerGet "Content-Type" = "application/json") :
    decodeDNSRecords (referenceEnv transport) res = (some rs, none) := by
  unfold decodeDNSRecords
  rw [hb]
  simp only [hct, beq_self_eq_true, if_true, referenceEnv, hdata]
  rw [jsonDecodeRecords_marshalRecords]

theorem decodeDNSRecords_returns_encoded_records_witness :
    (jsonResponse 200 (marshalRecords (some exampleRecords))).Body =
      some { data := marshalRecords (some exampleRecords), repr := "&\x7b\x7d" } ∧
    marshalRecords (some exampleRecords) =
      "[\x7b\"hostname\":\"example.com\",\"ip\":\"192.168.1.1\"\x7d,\x7b\"hostname\":\"example.com\",\"ip\":\"192.168.1.2\"\x7d]" ∧
    (jsonResponse 200 (marshalRecords (some exampleRecords))).headerGet "Content-Type" =
      "application/json" ∧
    decodeDNSRecords (referenceEnv (constantTransport (jsonResponse 200 "[]")))
      (jsonResponse 200 (marshalRecords (some exampleRecords))) = (some exampleRecords, none) :=
  ⟨rfl, by decide, by decide,
   decodeDNSRecords_returns_encoded_records _ (jsonResponse 200 (marshalRecords (some exampleRecords)))
    { data := marshalRecords (some exampleRecords), repr := "&\x7b\x7d" } exampleRecords rfl rfl
    (by decide)⟩

/-! ### Lifecycle callbacks -/

theorem doRequest_log (env : Env) (c : Client) (log : List Request) (method route : String)
    (body : Option SetDNSRecordRequest) :
    ∃ reqs, (doRequest env c log method route body).2 = log ++ reqs ∧ reqs.length ≤ 1 := by
  simp only [doRequest]
  split
  · exact ⟨[], by simp⟩
  · split
    · exact ⟨[_], rfl, by simp⟩
    · split
      · exact ⟨[_], rfl, by simp⟩
      · exact ⟨[_], rfl, by simp⟩

theorem GetDNSEntry_log (env : Env) (c : Client) (log : List Request) (h : String) :
    ∃ reqs, (GetDNSEntry env c log h).2 = log ++ reqs ∧ reqs.length ≤ 1 := by
  unfold GetDNSEntry
  split
  · exact ⟨[], by simp⟩
  · obtain ⟨reqs, hr, hl⟩ := doRequest_log env c log "GET" ("dns/" ++ h) none
    refine ⟨reqs, ?_, hl⟩
    rw [← hr]
    simp only []
    rcases doRequest env c log "GET" ("dns/" ++ h) none with ⟨r, l⟩
    cases r <;> rfl

theorem PostDNSEntry_log (env : Env) (c : Client) (log : List Request) (h ip : String) (a : Bool) :
    ∃ reqs, (PostDNSEntry env c log h ip a).2 = log ++ reqs ∧ reqs.length ≤ 1 := by
  unfold PostDNSEntry
  split
  · exact ⟨[], by simp⟩
  · obtain ⟨reqs, hr, hl⟩ := doRequest_log env c log "POST"
      (if a then "dns/" ++ h ++ "?append=true" else "dns/" ++ h) (some { IPs := [ip] })
    refine ⟨reqs, ?_, hl⟩
    rw [← hr]
    simp only []
    rcases doRequest env c log "POST"
      (if a then "dns/" ++ h ++ "?append=true" else "dns/" ++ h) (some { IPs := [ip] }) with ⟨r, l⟩
    cases r <;> rfl

theorem DeleteDNSEntry_log (env : Env) (c : Client) (log : List Request) (h : String) :
    ∃ reqs, (DeleteDNSEntry env c log h).2 = log ++ reqs ∧ reqs.length ≤ 1 := by
  unfold DeleteDNSEntry
  split
  · exact ⟨[], by simp⟩
  · obtain ⟨reqs, hr, hl⟩ := doRequest_log env c log "DELETE" ("dns/" ++ h) none
    refine ⟨reqs, ?_, hl⟩
    rw [← hr]
    simp only []
    rcases doRequest env c log "DELETE" ("dns/" ++ h) none with ⟨r, l⟩
    cases r <;> rfl

theorem resourceDnsEntryRead_log (env : Env) (c : Client) (d : ResourceData) (log : List Request) :
    ∃ reqs, (resourceDnsEntryRead env c d log).log = log ++ reqs ∧ reqs.length ≤ 1 := by
  obtain ⟨reqs, hr, hl⟩ := GetDNSEntry_log env c log d.hostname
  refine ⟨reqs, ?_, hl⟩
  rw [← hr]
  simp only [resourceDnsEntryRead, ResourceData.Get, FieldDNSEntryHostname, beq_self_eq_true,
    if_true]
  rcases GetDNSEntry env c log d.hostname with ⟨⟨entries, err⟩, l⟩
  cases err with
  | some e => rfl
  | none =>
    simp only []
    cases entries.getD [] <;> rfl

theorem resourceDnsEntryDelete_log (env : Env) (c : Client) (d : ResourceData)
    (log : List Request) :
    ∃ reqs, (resourceDnsEntryDelete env c d log).log = log ++ reqs ∧ reqs.length ≤ 1 := by
  obtain ⟨reqs, hr, hl⟩ := DeleteDNSEntry_log env c log d.hostname
  refine ⟨reqs, ?_, hl⟩
  rw [← hr]
  simp only [resourceDnsEntryDelete, ResourceData.Get, FieldDNSEntryHostname, beq_self_eq_true,
    if_true]
  rcases DeleteDNSEntry env c log d.hostname with ⟨err, l⟩
  cases err <;> rfl

theorem resourceDnsEntryCreate_unfold (env : Env) (c : Client) (d : ResourceData)
    (log : List Request) :
    resourceDnsEntryCreate env c d log = upsertThenRead env c d log := by
  have h1 : ("ip_address" == "hostname") = false := by decide
  have h2 : ("append" == "hostname") = false := by decide
  have h3 : ("append" == "ip_address") = false := by decide
  simp only [resourceDnsEntryCreate, upsertThenRead, ResourceData.Get, FieldDNSEntryHostname,
    FieldDNSEntryIpAddress, FieldDNSEntryAppend, beq_self_eq_true, if_true, h1, h2, h3,
    Bool.false_eq_true, if_false]

theorem upsertThenRead_log (env : Env) (c : Client) (d : ResourceData) (log : List Request) :
    ∃ reqs, (upsertThenRead env c d log).log = log ++ reqs ∧ reqs.length ≤ 2 := by
  obtain ⟨r1, hr1, hl1⟩ := PostDNSEntry_log env c log d.hostname d.ip_address d.append
  unfold upsertThenRead
  rcases hP : PostDNSEntry env c log d.hostname d.ip_address d.append with ⟨⟨recs, err⟩, l1⟩
  rw [hP] at hr1
  change l1 = log ++ r1 at hr1
  subst hr1
  cases err with
  | some e => exact ⟨r1, rfl, by omega⟩
  | none =>
    obtain ⟨r2, hr2, hl2⟩ := resourceDnsEntryRead_log env c d (log ++ r1)
    refine ⟨r1 ++ r2, ?_, ?_⟩
    · simp only []
      rw [hr2, List.append_assoc]
    · simp only [List.length_append]
      omega

/-- C11 at a failing input: the server answers `GET /dns/example.com` with
status 200, `application/json` and the body `[]` (or `null`).  `GetDNSEntry`
returns zero records and a nil error, and `resourceDnsEntryRead` then indexes
`entries[0]`: it panics instead of returning a not-found diagnostic. -/
theorem resourceDnsEntryRead_panics_on_zero_records :
    (GetDNSEntry (referenceEnv (constantTransport (jsonResponse 200 "[]"))) exampleClient []
        "example.com").1 = (some [], none) ∧
    (resourceDnsEntryRead (referenceEnv (constantTransport (jsonResponse 200 "[]"))) exampleClient
        exampleResource []).outcome = Outcome.panics ∧
    (GetDNSEntry (referenceEnv (constantTransport (jsonResponse 200 "null"))) exampleClient []
        "example.com").1 = (none, none) ∧
    (resourceDnsEntryRead (referenceEnv (constantTransport (jsonResponse 200 "null"))) exampleClient
        exampleResource []).outcome = Outcome.panics := by
  refine ⟨by decide, by decide, by decide, by decide⟩

/-- C12 at a failing input: the server answers the DELETE with status 500.
`DeleteDNSEntry` returns an error, yet `resourceDnsEntryDelete` returns nil
diagnostics and clears the id: the diagnostics built from the error are
dropped. -/
theorem resourceDnsEntryDelete_drops_client_error :
    (DeleteDNSEntry (referenceEnv (constantTransport serverErrorResponse)) exampleClient []
        "example.com").1 =
      some "request failed with status code: 500 and body: &\x7b0xc00019e040 \x7b0 0\x7d false <nil> 0x6b4060 0x6b3fe0\x7d" ∧
    exampleResource.Id = "example.com|192.168.1.1" ∧
    (resourceDnsEntryDelete (referenceEnv (constantTransport serverErrorResponse)) exampleClient
        exampleResource []).outcome = Outcome.returns [] ∧
    (resourceDnsEntryDelete (referenceEnv (constantTransport serverErrorResponse)) exampleClient
        exampleResource []).d.Id = "" := by
  refine ⟨by decide, by decide, by decide, by decide⟩

/-- C13, as the code has it: one invocation of `resourceDnsEntryRead` or of
`resourceDnsEntryDelete` adds at most one request to the log; one invocation
of `resourceDnsEntryCreate` or of `resourceDnsEntryUpdate` adds at most two
(the POST and the GET of the Read it ends with). -/
theorem lifecycle_request_bounds (env : Env) (c : Client) (d : ResourceData)
    (log : List Request) :
    (∃ reqs, (resourceDnsEntryRead env c d log).log = log ++ reqs ∧ reqs.length ≤ 1) ∧
    (∃ reqs, (resourceDnsEntryDelete env c d log).log = log ++ reqs ∧ reqs.length ≤ 1) ∧
    (∃ reqs, (resourceDnsEntryCreate env c d log).log = log ++ reqs ∧ reqs.length ≤ 2) ∧
    (∃ reqs, (resourceDnsEntryUpdate env c d log).log = log ++ reqs ∧ reqs.length ≤ 2) := by
  refine ⟨resourceDnsEntryRead_log env c d log, resourceDnsEntryDelete_log env c d log, ?_, ?_⟩
  · rw [resourceDnsEntryCreate_unfold]
    exact upsertThenRead_log env c d log
  · show ∃ reqs, (resourceDnsEntryCreate env c d log).log = log ++ reqs ∧ reqs.length ≤ 2
    rw [resourceDnsEntryCreate_unfold]
    exact upsertThenRead_log env c d log

/-- C13 fails for Create: when the POST succeeds, `resourceDnsEntryCreate`
goes on to `resourceDnsEntryRead`, and the invocation issues two requests, a
POST and a GET. -/
theorem resourceDnsEntryCreate_issues_two_requests :
    (resourceDnsEntryCreate (referenceEnv (constantTransport (jsonResponse 200
        "[\x7b\"hostname\":\"example.com\",\"ip\":\"192.168.1.1\"\x7d]"))) exampleClient
        exampleResource []).log =
      [{ Method := "POST", URL := "https://api.example.com/dns/example.com",
         ContentType := some "application/json", Body := some { IPs := ["192.168.1.1"] },
         InsecureSkipVerify := false },
       { Method := "GET", URL := "https://api.example.com/dns/example.com", ContentType := none,
         Body := none, InsecureSkipVerify := false }] := by
  decide

set_option maxRecDepth 20000 in
/-- C14 at a failing input: the server answers with status 500 and the body
`{"error":"internal server error"}`.  The error of `GetDNSEntry` names the
status code 500, but after `body:` it holds what `%v` prints for the body
reader, and the text of the body occurs nowhere in it. -/
theorem doRequest_error_lacks_body_text :
    (GetDNSEntry (referenceEnv (constantTransport serverErrorResponse)) exampleClient []
        "example.com").1 =
      (none, some "request failed with status code: 500 and body: &\x7b0xc00019e040 \x7b0 0\x7d false <nil> 0x6b4060 0x6b3fe0\x7d") ∧
    serverErrorResponse.Body.map (fun b => b.data) =
      some "\x7b\"error\":\"internal server error\"\x7d" ∧
    indexOfSub "\x7b\"error\":\"internal server error\"\x7d".toList
      "request failed with status code: 500 and body: &\x7b0xc00019e040 \x7b0 0\x7d false <nil> 0x6b4060 0x6b3fe0\x7d".toList =
      none := by
  refine ⟨by decide, by decide, by decide⟩

/-- C15, as the code has it: for a response with Content-Type
`application/json` and a body that the JSON decoder rejects, `decodeDNSRecords`
returns a nil record list and a non-nil error that wraps the decoder's. -/
theorem decodeDNSRecords_decoder_error (env : Env) (res : Response) (b : Body) (err : String)
    (hb : res.Body = some b) (hct : res.headerGet "Content-Type" = "application/json")
    (hdec : env.jsonDecode b.data = .error err) :
    decodeDNSRecords env res = (none, some ("failed to parse response body: " ++ err)) := by
  unfold decodeDNSRecords
  rw [hb]
  simp only [hct, beq_self_eq_true, if_true, hdec]

theorem decodeDNSRecords_decoder_error_witness :
    (jsonResponse 200 "[\x7b\"hostname\":\"example.com").Body =
      some { data := "[\x7b\"hostname\":\"example.com", repr := "&\x7b\x7d" } ∧
    (jsonResponse 200 "[\x7b\"hostname\":\"example.com").headerGet "Content-Type" =
      "application/json" ∧
    (referenceEnv (constantTransport (jsonResponse 200 "[]"))).jsonDecode
      "[\x7b\"hostname\":\"example.com" = .error "invalid JSON" ∧
    decodeDNSRecords (referenceEnv (constantTransport (jsonResponse 200 "[]")))
      (jsonResponse 200 "[\x7b\"hostname\":\"example.com") =
      (none, some ("failed to parse response body: " ++ "invalid JSON")) :=
  ⟨rfl, by decide, by decide,
   decodeDNSRecords_decoder_error _ (jsonResponse 200 "[\x7b\"hostname\":\"example.com")
    { data := "[\x7b\"hostname\":\"example.com", repr := "&\x7b\x7d" } "invalid JSON" rfl (by decide)
    (by decide)⟩

/-- C15 fails for bodies that are not a JSON array of records but that the
decoder accepts: the body `null` gives nil records and a nil error, and text
after the first JSON value is ignored, so an array followed by `]` gives
its records and a nil error. -/
theorem decodeDNSRecords_accepts_null_and_trailing_text :
    decodeDNSRecords (referenceEnv (constantTransport (jsonResponse 200 "[]")))
      (jsonResponse 200 "null") = (none, none) ∧
    decodeDNSRecords (referenceEnv (constantTransport (jsonResponse 200 "[]")))
      (jsonResponse 200 "[\x7b\"hostname\":\"example.com\",\"ip\":\"192.168.1.1\"\x7d]]") =
      (some [{ Hostname := "example.com", IP := "192.168.1.1" }], none) := by
  refine ⟨by decide, by decide⟩

/-- C16: `resourceDnsEntryUpdate` and `resourceDnsEntryCreate` give the same
outcome, resource data and request log on every input, and both are: call
`PostDNSEntry(hostname, ip_address, append)`; on its error return that error
as diagnostics with the log as the POST left it (no Read); otherwise return
the result of `resourceDnsEntryRead`. -/
theorem resourceDnsEntryUpdate_same_as_create (env : Env) (c : Client) (d : ResourceData)
    (log : List Request) :
    resourceDnsEntryUpdate env c d log = resourceDnsEntryCreate env c d log ∧
    resourceDnsEntryCreate env c d log = upsertThenRead env c d log ∧
    resourceDnsEntryUpdate env c d log = upsertThenRead env c d log := by
  have h : resourceDnsEntryUpdate env c d log = resourceDnsEntryCreate env c d log := rfl
  exact ⟨h, resourceDnsEntryCreate_unfold env c d log,
    h.trans (resourceDnsEntryCreate_unfold env c d log)⟩

end DnsmasqApi
